import Mathlib

/-!
Shallow embedding of `src/bin/wasm-node/rust/src/runtime_service.rs` (the
runtime service of the smoldot wasm-node light client).

Modelling conventions:
* Byte strings are `List Nat`; 32-byte block hashes are opaque `Nat`s.
* The external executor (`smoldot::executor`: `HostVmPrototype::new`,
  `storage_heap_pages_to_value`, `core_version`) is out of scope for the
  repository sources under `src/` and is passed in as an opaque `Executor`
  record of functions; `HostVmPrototype` and `CoreVersion` are opaque `Nat`s.
* The metadata query state machine (`smoldot::metadata::query_metadata`) is
  modelled as an inductive tree `MetadataQuery` of storage requests ending in
  a `Finished` node, as described by its interface
  (`StorageGet{key} | Finished(Result, vm)`).
* Rust panics/aborts are modelled by `Option`: a `none` result means the
  process aborts.
* SCALE-encoded headers are modelled pre-decoded as a `Header` structure
  (`smoldot::header::decode` is external to `src/`).
-/

namespace RuntimeServiceModel

abbrev Bytes := List Nat
abbrev Hash := Nat
abbrev VM := Nat
abbrev CoreVersion := Nat

/-- Decoded block header (the fields of the SCALE header that
`runtime_service.rs` reads through `header::decode`). -/
structure Header where
  number : Nat
  state_root : Hash
  parent_hash : Hash
deriving DecidableEq, Repr

/-- Rust `smoldot::sync::download_tree::RuntimeError`: why a runtime record failed
to compile (re-exported and used by `runtime_service.rs`). Causes are opaque. -/
inductive RuntimeError where
  | CodeNotFound
  | InvalidHeapPages (cause : Nat)
  | Build (cause : Nat)
  | CoreVersion (cause : Nat)
deriving DecidableEq, Repr

/-- Rust `smoldot::trie::proof_verify::Error` (opaque, except for
`TrieRootNotFound` which `is_network_problem` singles out). -/
inductive ProofError where
  | TrieRootNotFound
  | Other (cause : Nat)
deriving DecidableEq, Repr

/-- Rust `RuntimeCallError` from `runtime_service.rs`. The payloads of variants
whose type is external (`CallProofQueryError`, `header::Error`,
`StorageQueryError`) are opaque `Nat`s. -/
inductive RuntimeCallError where
  | InvalidRuntime (e : RuntimeError)
  | StorageRetrieval (e : ProofError)
  | CallProof (e : Nat)
  | NetworkBlockRequest
  | InvalidBlockHeader (e : Nat)
  | StorageQuery (e : Nat)
deriving DecidableEq, Repr

instance {ε α : Type _} [DecidableEq ε] [DecidableEq α] : DecidableEq (Except ε α) := fun x y =>
  match x, y with
  | .ok a, .ok b =>
    if h : a = b then .isTrue (h ▸ rfl) else .isFalse (fun he => h (Except.ok.inj he))
  | .error a, .error b =>
    if h : a = b then .isTrue (h ▸ rfl) else .isFalse (fun he => h (Except.error.inj he))
  | .ok _, .error _ => .isFalse (fun he => Except.noConfusion he)
  | .error _, .ok _ => .isFalse (fun he => Except.noConfusion he)

/-- Rust `SuccessfulRuntime` from `runtime_service.rs`. -/
structure SuccessfulRuntime where
  metadata : Option Bytes
  runtime_spec : CoreVersion
  virtual_machine : Option VM
deriving DecidableEq, Repr

/-- Rust `Runtime` from `runtime_service.rs`: one runtime record. -/
structure Runtime where
  runtime : Except RuntimeError SuccessfulRuntime
  runtime_code : Option Bytes
  heap_pages : Option Bytes
deriving DecidableEq, Repr

/-- The opaque external executor interface consumed by `runtime_service.rs`.
Error payloads are opaque `Nat`s. `core_version` consumes the VM and returns
it alongside the decoded spec on success. -/
structure Executor where
  storage_heap_pages_to_value : Option Bytes → Except Nat Nat
  new_vm : Bytes → Nat → Except Nat VM
  core_version : VM → Except Nat (CoreVersion × VM)

/-- Rust `SuccessfulRuntime::from_params` (runtime_service.rs:1504-1541): builds a
VM from the `:code` / `:heappages` storage values via the external executor
and extracts the core version. The cooperative `yield_once` calls have no
observable effect on the result and are elided. -/
def SuccessfulRuntime.from_params (ex : Executor) (code heap_pages : Option Bytes) :
    Except RuntimeError SuccessfulRuntime :=
  match code with
  | none => .error .CodeNotFound
  | some c =>
    match ex.storage_heap_pages_to_value heap_pages with
    | .error e => .error (.InvalidHeapPages e)
    | .ok hp =>
      match ex.new_vm c hp with
      | .error e => .error (.Build e)
      | .ok vm =>
        match ex.core_version vm with
        | .error e => .error (.CoreVersion e)
        | .ok (spec, vm2) =>
          .ok { metadata := none, runtime_spec := spec, virtual_machine := some vm2 }

/-- The metadata query state machine
(`smoldot::metadata::query_metadata`, external): a tree of storage requests
ending in a finished node. `StorageGet` carries the key being requested, the
prototype that `into_prototype()` would recover, and the continuation used by
`inject_value`. -/
inductive MetadataQuery where
  | Finished (result : Except Nat Bytes) (vm : VM)
  | StorageGet (key : Bytes) (proto : VM) (inject : Option Bytes → MetadataQuery)

/-- Storage key `b":code"`. -/
def codeKey : Bytes := [58, 99, 111, 100, 101]

/-- Storage key `b":heappages"`. -/
def heappagesKey : Bytes := [58, 104, 101, 97, 112, 112, 97, 103, 101, 115]

/-- Embedding of `chain_spec.genesis_storage().find(|(k, _)| k == key)`. -/
def genesisFind (storage : List (Bytes × Bytes)) (key : Bytes) : Option Bytes :=
  (storage.find? (fun kv => kv.1 == key)).map (·.2)

/-- The genesis metadata loop of `RuntimeService::new`
(runtime_service.rs:139-159): drives the query against a key/value source,
returning the metadata and the recovered VM, or `none` for the
`panic!("Unable to generate genesis metadata")` branch. -/
def driveGenesisMetadata (lookup : Bytes → Option Bytes) :
    MetadataQuery → Option (Bytes × VM)
  | .Finished (.ok m) vm => some (m, vm)
  | .Finished (.error _) _ => none
  | .StorageGet key _ inject => driveGenesisMetadata lookup (inject (lookup key))

/-- Modelled from the spec: the relevant projection of
`smoldot::sync::download_tree::DownloadTree` (§4.2, §9 of the spec; the
`download_tree` module is repository code not present under `src/`).
Runtime records live in an arena of integer ids carrying the records
(spec §9: "arena + integer id"); blocks whose runtime is known are bound to
exactly one record id; `best` is the current best block. -/
structure GuardedTree where
  runtimes : List (Nat × Runtime)
  blocks : List (Hash × Nat)
  best : Hash
deriving DecidableEq

/-- Modelled from the spec: id of the runtime record a block is bound to. -/
def GuardedTree.block_runtime_id (t : GuardedTree) (h : Hash) : Option Nat :=
  (t.blocks.find? (fun kv => kv.1 == h)).map (·.2)

/-- Modelled from the spec: `DownloadTree::block_runtime(hash)` — the runtime
record of a block currently in the tree. -/
def GuardedTree.block_runtime (t : GuardedTree) (h : Hash) : Option Runtime :=
  (t.block_runtime_id h).bind fun i => (t.runtimes.find? (fun kv => kv.1 == i)).map (·.2)

/-- Modelled from the spec: apply `f` to the arena record with id `i`
(`block_runtime_mut` resolves a block to its arena entry and mutates it). -/
def GuardedTree.modify_record (t : GuardedTree) (i : Nat) (f : Runtime → Runtime) : GuardedTree :=
  { t with runtimes := t.runtimes.map (fun kv => if kv.1 == i then (kv.1, f kv.2) else kv) }

/-- Modelled from the spec: mutate the record bound to block `h` in place. -/
def GuardedTree.modify_block (t : GuardedTree) (h : Hash) (f : Runtime → Runtime) : GuardedTree :=
  match t.block_runtime_id h with
  | none => t
  | some i => t.modify_record i f

/-- Overwrite the `virtual_machine` slot of a record (when it compiled
successfully; an `Err` record is left unchanged). -/
def Runtime.set_vm (rt : Runtime) (vm : Option VM) : Runtime :=
  { rt with runtime := match rt.runtime with
      | .ok sr => .ok { sr with virtual_machine := vm }
      | .error e => .error e }

/-- Embedding of `tree.block_runtime_mut(h).unwrap().runtime.as_mut().unwrap().virtual_machine = vm`. -/
def GuardedTree.set_block_vm (t : GuardedTree) (h : Hash) (vm : Option VM) : GuardedTree :=
  t.modify_block h (fun rt => rt.set_vm vm)

/-- The genesis-runtime construction of `RuntimeService::new`
(runtime_service.rs:119-167): find `:code` and `:heappages` in the chain
spec's genesis storage, build the runtime via `SuccessfulRuntime::from_params`,
and — when it built — drive the metadata query to completion over the genesis
storage. `none` models the process aborting
(`panic!("Unable to generate genesis metadata")`, and the `.take().unwrap()`
of the always-full fresh slot). A build failure is NOT fatal: the error is
stored in the record. -/
def new_genesis_runtime (ex : Executor) (query_metadata : VM → MetadataQuery)
    (genesis_storage : List (Bytes × Bytes)) : Option Runtime :=
  match SuccessfulRuntime.from_params ex (genesisFind genesis_storage codeKey)
      (genesisFind genesis_storage heappagesKey) with
  | .error e =>
    some { runtime := .error e, runtime_code := genesisFind genesis_storage codeKey,
           heap_pages := genesisFind genesis_storage heappagesKey }
  | .ok r =>
    match r.virtual_machine with
    | none => none
    | some vm0 =>
      match driveGenesisMetadata (genesisFind genesis_storage) (query_metadata vm0) with
      | none => none
      | some (m, vm) =>
        some { runtime := .ok { r with metadata := some m, virtual_machine := some vm },
               runtime_code := genesisFind genesis_storage codeKey,
               heap_pages := genesisFind genesis_storage heappagesKey }

/-- Rust `RuntimeService::new` (runtime_service.rs:112-202), projected to the tree
it seeds: on success the guarded tree is
`DownloadTree::from_finalized_block_and_runtime(genesis_header, genesis_runtime)`,
i.e. the genesis block bound to the genesis runtime record and marked best.
`none` models the process aborting during genesis metadata generation. -/
def RuntimeService.new (ex : Executor) (query_metadata : VM → MetadataQuery)
    (genesis_storage : List (Bytes × Bytes)) (genesis_hash : Hash) : Option GuardedTree :=
  (new_genesis_runtime ex query_metadata genesis_storage).map fun rt =>
    { runtimes := [(0, rt)], blocks := [(genesis_hash, 0)], best := genesis_hash }

/-- Rust `RuntimeLockInner` (runtime_service.rs:625-633). `InTree` holds the
guarded mutex (the tree itself is passed alongside); `OutOfTree` inlines the
header and the ad-hoc VM fetched by `network_block_info`. -/
inductive RuntimeLockInner where
  | InTree
  | OutOfTree (scale_encoded_header : Header) (virtual_machine : VM)
deriving DecidableEq

/-- Rust `RuntimeCallLock` (runtime_service.rs:766-772). `guarded : Bool` models
whether the `Option<MutexGuard>` is `Some` (the lock holds the guarded
mutex). -/
structure RuntimeCallLock where
  guarded : Bool
  runtime_block_header : Header
  block_hash : Hash
  call_proof : Except RuntimeCallError (List Bytes)
deriving DecidableEq

/-- Embedding of `call_proof.map_err(RuntimeCallError::CallProof)`
(runtime_service.rs:706-719): the stored result of the call-proof network
request. -/
def callProofResult (pr : Except Nat (List Bytes)) : Except RuntimeCallError (List Bytes) :=
  match pr with
  | .ok p => .ok p
  | .error e => .error (.CallProof e)

/-- Rust `RuntimeLock::start` (runtime_service.rs:678-762).

Inputs model the interaction points of the async function:
* `proof_result` — the sync service's answer to `call_proof_query`
  (`CallProofQueryError` is opaque `Nat`);
* `treeAtRelock` — the guarded tree at the moment the mutex is re-acquired
  after the network call (the tree may have changed while unlocked);
* `headerAtStart` — `self.block_scale_encoded_header()` captured at entry
  (for the `InTree` variant; `OutOfTree` uses its inlined header);
* `network_fetch` — the result of the fallback
  `network_block_info(block_hash)` used when the block was pruned meanwhile.

Returns `none` for the panic of `r.virtual_machine.take().unwrap()` on an
empty slot; otherwise the original `Result`: a call lock, the extracted VM
prototype and the tree as left behind (slot emptied for the in-tree path). -/
def RuntimeLock.start (inner : RuntimeLockInner) (block_hash : Hash) (headerAtStart : Header)
    (proof_result : Except Nat (List Bytes)) (treeAtRelock : GuardedTree)
    (network_fetch : Except RuntimeCallError (Header × VM)) :
    Option (Except RuntimeCallError (RuntimeCallLock × VM × GuardedTree)) :=
  match inner with
  | .OutOfTree hdr2 vm =>
    some (.ok ({ guarded := false, runtime_block_header := hdr2, block_hash := block_hash,
                 call_proof := callProofResult proof_result }, vm, treeAtRelock))
  | .InTree =>
    match treeAtRelock.block_runtime block_hash with
    | some rt =>
      match rt.runtime with
      | .error e => some (.error (.InvalidRuntime e))
      | .ok sr =>
        match sr.virtual_machine with
        | none => none
        | some vm =>
          some (.ok ({ guarded := true, runtime_block_header := headerAtStart,
                       block_hash := block_hash,
                       call_proof := callProofResult proof_result }, vm,
                     treeAtRelock.set_block_vm block_hash none))
    | none =>
      match network_fetch with
      | .error e => some (.error e)
      | .ok (_, vm) =>
        some (.ok ({ guarded := false, runtime_block_header := headerAtStart,
                     block_hash := block_hash,
                     call_proof := callProofResult proof_result }, vm, treeAtRelock))

/-- Rust `RuntimeCallLock::unlock` (runtime_service.rs:870-883): if the lock holds
the guard, put the VM prototype back into the record's slot. `none` models the
panics of the two `.unwrap()`s (block no longer in tree / record is `Err`). -/
def RuntimeCallLock.unlock (lock : RuntimeCallLock) (vm : VM) (tree : GuardedTree) :
    Option GuardedTree :=
  if lock.guarded then
    match tree.block_runtime lock.block_hash with
    | none => none
    | some rt =>
      match rt.runtime with
      | .error _ => none
      | .ok _ => some (tree.set_block_vm lock.block_hash (some vm))
  else some tree

/-- Rust `impl Drop for RuntimeCallLock` (runtime_service.rs:886-906): `true` iff
dropping the lock in the given tree state aborts the process. When the guard
is held, the drop glue panics if the record's slot is empty (and the two
`.unwrap()`s panic if the block is gone or its record is `Err`); without the
guard the drop glue does nothing. -/
def RuntimeCallLock.dropAborts (lock : RuntimeCallLock) (tree : GuardedTree) : Bool :=
  if lock.guarded then
    match tree.block_runtime lock.block_hash with
    | none => true
    | some rt =>
      match rt.runtime with
      | .error _ => true
      | .ok sr => sr.virtual_machine.isNone
  else false

/-- Rust `RuntimeCallLock::storage_entry` (runtime_service.rs:792-806). `verify`
models the external `proof_verify::verify_proof` (arguments: requested key,
trie root hash, proof nodes). -/
def RuntimeCallLock.storage_entry
    (verify : Bytes → Hash → List Bytes → Except ProofError (Option Bytes))
    (lock : RuntimeCallLock) (requested_key : Bytes) :
    Except RuntimeCallError (Option Bytes) :=
  match lock.call_proof with
  | .error e => .error e
  | .ok proof =>
    match verify requested_key lock.runtime_block_header.state_root proof with
    | .ok v => .ok v
    | .error e => .error (.StorageRetrieval e)

/-- Rust `proof_verify::Children` (external `smoldot::trie::proof_verify`):
children of a trie node, either absent, a single nibble, or a 16-bit
bitmap over nibbles. -/
inductive Children where
  | nothing
  | one (nibble : Nat)
  | multiple (children_bitmap : Nat)
deriving DecidableEq

/-- Rust `proof_verify::TrieNodeInfo` (external): whether the node carries a
storage value, and its children. -/
structure NodeInfo where
  has_storage_value : Bool
  children : Children
deriving DecidableEq

/-- Rust `trie::bytes_to_nibbles`: each byte yields its high then low nibble. -/
def bytes_to_nibbles (bs : Bytes) : List Nat :=
  bs.foldr (fun b acc => b / 16 :: b % 16 :: acc) []

/-- Rust `trie::nibbles_to_bytes_extend`: recombine nibble pairs into bytes. -/
def nibbles_to_bytes : List Nat → Bytes
  | a :: b :: rest => (16 * a + b) :: nibbles_to_bytes rest
  | _ => []

/-- Children expansion of one visited key (runtime_service.rs:841-859): for
`One`, push `key ++ [nibble]`; for `Multiple`, push `key ++ [n]` for every
nibble `n` (ascending, `trie::all_nibbles()`) whose bit is set in the bitmap. -/
def childKeys (key : List Nat) : Children → List (List Nat)
  | .nothing => []
  | .one n => [key ++ [n]]
  | .multiple bitmap =>
    (List.range 16).filterMap fun n =>
      if bitmap.testBit n then some (key ++ [n]) else none

/-- One pass of the `for key in mem::replace(&mut to_find, Vec::new())` loop
body (runtime_service.rs:828-860) over a batch of keys: visit each key with
the external `trie_node_info` oracle, record the key in the output when the
node holds a storage value, and collect the children pushed into `to_find`.
Returns `(new to_find, output additions)` in visit order. -/
def processBatch (nodeInfo : List Nat → Except ProofError NodeInfo) :
    List (List Nat) → Except ProofError (List (List Nat) × List Bytes)
  | [] => .ok ([], [])
  | key :: rest =>
    match nodeInfo key with
    | .error e => .error e
    | .ok info =>
      match processBatch nodeInfo rest with
      | .error e => .error e
      | .ok (tf, out) =>
        .ok (childKeys key info.children ++ tf,
             (if info.has_storage_value then [nibbles_to_bytes key] else []) ++ out)

/-- Lexicographic `≤` on byte strings (`Vec<Vec<u8>>::sort`). -/
def bytesLe : Bytes → Bytes → Bool
  | [], _ => true
  | _ :: _, [] => false
  | a :: as_, b :: bs =>
    if a < b then true else if b < a then false else bytesLe as_ bs

/-- Insert a byte string into a `bytesLe`-sorted list. -/
def insertSorted (x : Bytes) : List Bytes → List Bytes
  | [] => [x]
  | y :: ys => if bytesLe x y then x :: y :: ys else y :: insertSorted x ys

/-- Stable sort of byte strings under `bytesLe` (`Vec<Vec<u8>>::sort`),
by insertion so that concrete evaluations reduce. -/
def sortBytes (l : List Bytes) : List Bytes := l.foldr insertSorted []

/-- Rust `RuntimeCallLock::storage_prefix_keys_ordered` (runtime_service.rs:815-865)
as written in the source. `to_find` starts as the sole prefix (in nibbles);
the `for` loop iterates over that initial batch only — the children it pushes
into `to_find` are never themselves visited, because the source has no
surrounding `while !to_find.is_empty()` loop. The resulting `to_find` is
therefore discarded here, exactly as the source drops it. `nodeInfo` models
the external `proof_verify::trie_node_info` applied to the stored call proof
and `block_storage_root`. -/
def RuntimeCallLock.storage_prefix_keys_ordered
    (nodeInfo : List Bytes → Hash → List Nat → Except ProofError NodeInfo)
    (lock : RuntimeCallLock) (pfx : Bytes) :
    Except RuntimeCallError (List Bytes) :=
  match lock.call_proof with
  | .error e => .error e
  | .ok proof =>
    match processBatch (nodeInfo proof lock.runtime_block_header.state_root)
        [bytes_to_nibbles pfx] with
    | .error e => .error (.StorageRetrieval e)
    | .ok (_, output) => .ok (sortBytes output)

/-- Modelled from the spec: the walk `storage_prefix_keys_ordered` is
documented to perform (spec §4.5: "walks the proof's trie ... expanding
children bitmap by bitmap, collects every key under `prefix` that has a
stored value"): keep processing batches until `to_find` is exhausted. `fuel`
bounds the depth; the spec's walk terminates because the proof is finite. -/
def specPrefixKeysWalk (nodeInfo : List Nat → Except ProofError NodeInfo) :
    Nat → List (List Nat) → Except ProofError (List Bytes)
  | _, [] => .ok []
  | 0, _ :: _ => .error (.Other 0)
  | fuel + 1, to_find =>
    match processBatch nodeInfo to_find with
    | .error e => .error e
    | .ok (tf, out) =>
      match specPrefixKeysWalk nodeInfo fuel tf with
      | .error e => .error e
      | .ok rest => .ok (out ++ rest)

/-- Modelled from the spec: `storage_prefix_keys_ordered` as specified —
walk the whole sub-trie under `prefix` and return the sorted keys that
carry a storage value. -/
def specStoragePrefixKeysOrdered
    (nodeInfo : List Bytes → Hash → List Nat → Except ProofError NodeInfo)
    (lock : RuntimeCallLock) (fuel : Nat) (pfx : Bytes) :
    Except RuntimeCallError (List Bytes) :=
  match lock.call_proof with
  | .error e => .error e
  | .ok proof =>
    match specPrefixKeysWalk (nodeInfo proof lock.runtime_block_header.state_root) fuel
        [bytes_to_nibbles pfx] with
    | .error e => .error (.StorageRetrieval e)
    | .ok output => .ok (sortBytes output)

/-- Rust `download_tree::OutputUpdateBlockBest` (external to `src/`). -/
inductive OutputUpdateBlockBest where
  | NotNewBest
  | NewBest
  | NewBestAndRuntimeUpgrade
deriving DecidableEq

/-- Rust `download_tree::OutputUpdate` (external to `src/`), as consumed by
`Background::advance_and_notify_subscribers`. The terminating
`None`/`OutputUpdate::None` results of `try_advance_output` end the loop and
are not part of the list. -/
inductive OutputUpdate where
  | FirstFinalized
  | Finalized (hash best_block_hash : Hash)
  | Block (is_new_best : OutputUpdateBlockBest) (parent_hash : Hash) (header : Header)
deriving DecidableEq

/-- The three flags accumulated by `Background::advance_and_notify_subscribers`
(runtime_service.rs:1293-1295) and passed to `Guarded::notify_subscribers`. -/
structure NotifyFlags where
  best_block_updated : Bool
  best_block_runtime_changed : Bool
  finalized_block_updated : Bool
deriving DecidableEq

/-- One iteration of the `loop` in `advance_and_notify_subscribers`
(runtime_service.rs:1297-1351), restricted to its effect on the three flags:
`FirstFinalized` and `Finalized` set all three (including
`best_block_runtime_changed`, the `// TODO: ?!` lines); a new-best block sets
`best_block_updated` and additionally `best_block_runtime_changed` when
flagged `NewBestAndRuntimeUpgrade`; a non-best block changes nothing. -/
def advanceFlagsStep (acc : NotifyFlags) : OutputUpdate → NotifyFlags
  | .FirstFinalized =>
    { acc with best_block_updated := true, finalized_block_updated := true,
               best_block_runtime_changed := true }
  | .Finalized _ _ =>
    { acc with best_block_updated := true, finalized_block_updated := true,
               best_block_runtime_changed := true }
  | .Block .NewBest _ _ => { acc with best_block_updated := true }
  | .Block .NewBestAndRuntimeUpgrade _ _ =>
    { acc with best_block_updated := true, best_block_runtime_changed := true }
  | .Block .NotNewBest _ _ => acc

/-- The flags `advance_and_notify_subscribers` hands to
`Guarded::notify_subscribers` after draining `try_advance_output`, as a
function of the sequence of output updates the tree yielded. -/
def advanceFlags (updates : List OutputUpdate) : NotifyFlags :=
  updates.foldl advanceFlagsStep ⟨false, false, false⟩

/-- Rust `Guarded::notify_subscribers` (runtime_service.rs:992-1052), restricted to
the runtime-version subscription list: every (still open) subscriber receives
a notification exactly when `best_block_runtime_changed` is set. -/
def notifiedRuntimeVersionSubs (subs : List Nat) (flags : NotifyFlags) : List Nat :=
  if flags.best_block_runtime_changed then subs else []

/-- Modelled from the spec: whether the sequence of output updates contains a
best-block emission whose runtime record differs from the previous best's —
per spec §4.2/§8.7, `try_advance_output` flags such an emission (and only
such an emission) `NewBestAndRuntimeUpgrade`. -/
def runtimeRecordChanged (updates : List OutputUpdate) : Bool :=
  updates.any fun u =>
    match u with
    | .Block .NewBestAndRuntimeUpgrade _ _ => true
    | _ => false

/-- Whether an output update triggers `best_block_runtime_changed` in the
code (used to characterise `advanceFlags`). -/
def triggersRuntimeChanged : OutputUpdate → Bool
  | .FirstFinalized => true
  | .Finalized _ _ => true
  | .Block .NewBestAndRuntimeUpgrade _ _ => true
  | _ => false

/-- The scheduling loop of `Background::start_necessary_downloads`
(runtime_service.rs:1372-1434): repeatedly, stop if 2 or more downloads are
already in flight (`if self.runtime_downloads.len() >= 2 { break; }`);
otherwise consult `next_necessary_download` — modelled from the spec as an
abstract supply yielding `avail` further `Ready` results before `NotReady` —
and dispatch one download future. Returns the number of in-flight downloads
after the pass. -/
def startNecessaryDownloads (inflight : Nat) : (avail : Nat) → Nat
  | 0 => inflight
  | avail + 1 => if 2 ≤ inflight then inflight else startNecessaryDownloads (inflight + 1) avail

/-- The worker events of `run_background`'s inner and outer loops
(runtime_service.rs:1055-1219), restricted to their effect on the number of
in-flight downloads. Each carries the abstract supply of `Ready` scheduler
answers available during the `start_necessary_downloads` pass it triggers. -/
inductive WorkerEvent where
  | wakeUpTimer (avail : Nat)
  | syncNotification (avail : Nat)
  | downloadFinished (avail : Nat)
  | outerLoopReset (avail : Nat)
deriving DecidableEq

/-- Effect of one worker event on the in-flight download count: a finished
download (success or failure) leaves the `FuturesUnordered`, an outer-loop
reset recreates `Background` with an empty download list, and every event
ends with a `start_necessary_downloads` pass. -/
def applyWorkerEvent (inflight : Nat) : WorkerEvent → Nat
  | .wakeUpTimer avail => startNecessaryDownloads inflight avail
  | .syncNotification avail => startNecessaryDownloads inflight avail
  | .downloadFinished avail => startNecessaryDownloads (inflight - 1) avail
  | .outerLoopReset avail => startNecessaryDownloads 0 avail

/-- In-flight download count after a sequence of worker events, starting from
the service's initial state (no downloads in flight). -/
def runWorkerEvents (events : List WorkerEvent) : Nat :=
  events.foldl applyWorkerEvent 0

/-- Outcome of `Background::runtime_download_finished`
(runtime_service.rs:1248-1288) for a successful download `(storage_code,
storage_heap_pages)`: either bind the block to an already-existing runtime
record (`runtime_download_finished_existing`, no compilation), or compile the
pair with `SuccessfulRuntime::from_params` and insert it as a new record
(`runtime_download_finished_new`). -/
inductive DownloadFinishedAction where
  | bindExisting (id : Nat)
  | insertNew (rt : Runtime)
deriving DecidableEq

/-- The decision logic of `Background::runtime_download_finished`: search
`runtimes_iter()` for a record with byte-equal `runtime_code` and
`heap_pages`; bind to the first such record, otherwise compile and insert. -/
def runtime_download_finished_action (ex : Executor) (runtimes : List (Nat × Runtime))
    (storage_code storage_heap_pages : Option Bytes) : DownloadFinishedAction :=
  match runtimes.find? (fun kv =>
      decide (kv.2.runtime_code = storage_code ∧ kv.2.heap_pages = storage_heap_pages)) with
  | some kv => .bindExisting kv.1
  | none =>
    .insertNew
      { runtime := SuccessfulRuntime.from_params ex storage_code storage_heap_pages,
        runtime_code := storage_code, heap_pages := storage_heap_pages }

/-- Rust `RuntimeService::is_near_head_of_chain_heuristic`
(runtime_service.rs:596-613): `false` when the sync service's heuristic is
`false`; otherwise the cached `Guarded::best_near_head_of_chain` flag. -/
def is_near_head_of_chain_heuristic (sync_near : Bool) (best_near_head_of_chain : Bool) : Bool :=
  if !sync_near then false else best_near_head_of_chain

/-- The worker events of `run_background` that can touch
`Guarded::best_near_head_of_chain`. Each carries the sync service's heuristic
value sampled while handling the event (`sync_near`), and whether handling the
event produced a best-block transition in the *output* view
(`output_new_best`) — the latter is what the spec claims the flag is captured
at; the code never consults it. -/
inductive NearHeadEvent where
  | inputBlock (is_new_best : Bool) (sync_near : Bool) (output_new_best : Bool)
  | downloadSuccess (sync_near : Bool) (output_new_best : Bool)
  | downloadFailure
  | finalizedNotification (sync_near : Bool) (output_new_best : Bool)
deriving DecidableEq

/-- How the code updates `best_near_head_of_chain`: on a new *input* best
block it stores the freshly sampled sync heuristic (runtime_service.rs:
1159-1165), and on every successful runtime download it is unconditionally
set to `true` (runtime_service.rs:1193, the commented "complete hack").
Failures and finalizations leave it alone. -/
def codeFlagStep (flag : Bool) : NearHeadEvent → Bool
  | .inputBlock is_new_best sync_near _ => if is_new_best then sync_near else flag
  | .downloadSuccess _ _ => true
  | .downloadFailure => flag
  | .finalizedNotification _ _ => flag

/-- Modelled from the spec: the flag the claim describes — the sync heuristic
captured at the latest best-block *output* transition, unchanged otherwise. -/
def claimFlagStep (flag : Bool) : NearHeadEvent → Bool
  | .inputBlock _ sync_near output_new_best => if output_new_best then sync_near else flag
  | .downloadSuccess sync_near output_new_best => if output_new_best then sync_near else flag
  | .downloadFailure => flag
  | .finalizedNotification sync_near output_new_best =>
    if output_new_best then sync_near else flag

/-- Rust `MetadataError` (runtime_service.rs:950-960). The payload of
`MetadataQuery` (`metadata::Error`, external) is an opaque `Nat`. -/
inductive MetadataError where
  | CallError (e : RuntimeCallError)
  | InvalidRuntime (e : RuntimeError)
  | MetadataQuery (e : Nat)
deriving DecidableEq

/-- Overwrite the cached metadata of a record (when it compiled successfully;
an `Err` record is left unchanged). -/
def Runtime.set_metadata (rt : Runtime) (m : Bytes) : Runtime :=
  { rt with runtime := match rt.runtime with
      | .ok sr => .ok { sr with metadata := some m }
      | .error e => .error e }

/-- The write-back step of `RuntimeService::metadata`
(runtime_service.rs:558-568):
`guarded.tree.best_block_runtime_mut().runtime.as_mut().unwrap().metadata =
Some(metadata)`. The target is the record of the block that is best *now*,
and the `.unwrap()` panics (`none`) when that record holds a compile error.
(`best_block_runtime_mut` always finds a record in the real tree; a missing
one is likewise a modelling panic.) -/
def GuardedTree.set_best_metadata (t : GuardedTree) (m : Bytes) : Option GuardedTree :=
  match t.block_runtime t.best with
  | none => none
  | some rt =>
    match rt.runtime with
    | .error _ => none
    | .ok _ => some (t.modify_block t.best (fun r => r.set_metadata m))

/-- The metadata-query driving loop of `RuntimeService::metadata`
(runtime_service.rs:554-586): storage requests are answered through
`RuntimeCallLock::storage_entry`; a storage error aborts the query, recovering
the prototype via `into_prototype()`. Returns the result and the recovered
VM. -/
def driveMetadataCall (verify : Bytes → Hash → List Bytes → Except ProofError (Option Bytes))
    (lock : RuntimeCallLock) :
    MetadataQuery → (Except MetadataError Bytes) × VM
  | .Finished (.ok m) vm => (.ok m, vm)
  | .Finished (.error e) vm => (.error (.MetadataQuery e), vm)
  | .StorageGet key proto inject =>
    match lock.storage_entry verify key with
    | .ok v => driveMetadataCall verify lock (inject v)
    | .error e => (.error (.CallError e), proto)

/-- Rust `RuntimeService::metadata` (runtime_service.rs:524-590).

`t0` is the guarded tree when the cache is checked and the best-block runtime
lock is acquired (modelled as one snapshot: nothing intervenes between the
two short critical sections in the executions considered); `hdr` the header of
that best block; `t1` the tree when `start` re-acquires the mutex after the
call-proof network request — the best block may have changed in between.
On a cache miss the metadata is computed from the *locked* block's VM
(the best block of `t0`), then written back into the record of the block that
is best in the tree at completion time, and the VM is returned via `unlock`.
`none` models a panic. -/
def RuntimeService.metadata
    (verify : Bytes → Hash → List Bytes → Except ProofError (Option Bytes))
    (query_metadata : VM → MetadataQuery)
    (t0 : GuardedTree) (hdr : Header) (proof_result : Except Nat (List Bytes))
    (t1 : GuardedTree) (network_fetch : Except RuntimeCallError (Header × VM)) :
    Option ((Except MetadataError Bytes) × GuardedTree) :=
  match t0.block_runtime t0.best with
  | none => none
  | some rt =>
    match rt.runtime with
    | .error e => some (.error (.InvalidRuntime e), t0)
    | .ok sr =>
      match sr.metadata with
      | some m => some (.ok m, t0)
      | none =>
        match RuntimeLock.start .InTree t0.best hdr proof_result t1 network_fetch with
        | none => none
        | some (.error e) => some (.error (.CallError e), t1)
        | some (.ok (lock, vm, t2)) =>
          match driveMetadataCall verify lock (query_metadata vm) with
          | (.ok m, vm2) =>
            match (if lock.guarded then t2.set_best_metadata m else some t2) with
            | none => none
            | some t3 =>
              match lock.unlock vm2 t3 with
              | none => none
              | some t4 => some (.ok m, t4)
          | (.error e, vm2) =>
            match lock.unlock vm2 t2 with
            | none => none
            | some t3 => some (.error e, t3)

/-- A record respects the VM-slot discipline: if it compiled successfully its
`virtual_machine` slot is occupied. -/
def Runtime.slotFull (rt : Runtime) : Bool :=
  match rt.runtime with
  | .ok sr => sr.virtual_machine.isSome
  | .error _ => true

/-- State of the guarded mutex protocol: the tree, and `holder = some bh`
when a `RuntimeCallLock` for block `bh` currently owns the mutex guard
(between `RuntimeLock::start`'s re-acquisition and `unlock`). `holder = none`
means the mutex is free (transient critical sections are atomic here). -/
structure ProtocolState where
  tree : GuardedTree
  holder : Option Hash
deriving DecidableEq

/-- The transitions of `runtime_service.rs` that touch the guarded tree.

* `envMutation` — any critical section of the background worker or the facade
  run while no call lock is outstanding: inserting blocks, completing or
  failing downloads, finalizing/pruning, the temporary-worker hand-over.
  All of these only add records freshly built by
  `SuccessfulRuntime::from_params` (whose slot is full), keep records from the
  previous state (possibly with their cached `metadata` refreshed, which
  `Runtime.slotFull` ignores), or delete records; none empties a
  `virtual_machine` slot.
* `startExtract` — the in-tree path of `RuntimeLock::start`
  (runtime_service.rs:736-743): `r.virtual_machine.take().unwrap()` empties
  the slot while the guard moves into the returned `RuntimeCallLock`.
* `metadataWrite` — `RuntimeService::metadata`'s write-back performed while
  its call lock holds the guard; it only touches a record's `metadata` field.
* `unlockStep` — `RuntimeCallLock::unlock` restores the slot and the guard is
  then released (dropping the lock without `unlock` aborts the process:
  there is no corresponding transition). -/
inductive ProtocolStep : ProtocolState → ProtocolState → Prop where
  | envMutation (t t' : GuardedTree)
      (hrec : ∀ kv ∈ t'.runtimes, kv.2.slotFull = true ∨ kv ∈ t.runtimes) :
      ProtocolStep ⟨t, none⟩ ⟨t', none⟩
  | startExtract (t : GuardedTree) (bh : Hash) (rt : Runtime) (sr : SuccessfulRuntime) (vm : VM)
      (hb : t.block_runtime bh = some rt) (hok : rt.runtime = .ok sr)
      (hvm : sr.virtual_machine = some vm) :
      ProtocolStep ⟨t, none⟩ ⟨t.set_block_vm bh none, some bh⟩
  | metadataWrite (t : GuardedTree) (bh h : Hash) (m : Bytes) :
      ProtocolStep ⟨t, some bh⟩ ⟨t.modify_block h (fun r => r.set_metadata m), some bh⟩
  | unlockStep (t t' : GuardedTree) (bh : Hash) (hdr : Header)
      (pr : Except RuntimeCallError (List Bytes)) (vm : VM)
      (hu : RuntimeCallLock.unlock ⟨true, hdr, bh, pr⟩ vm t = some t') :
      ProtocolStep ⟨t, some bh⟩ ⟨t', none⟩

/-- States reachable by the runtime service: the tree seeded by
`RuntimeService::new`, closed under the protocol steps. -/
inductive ProtocolReachable : ProtocolState → Prop where
  | init (ex : Executor) (qm : VM → MetadataQuery) (storage : List (Bytes × Bytes))
      (gh : Hash) (t : GuardedTree) (hnew : RuntimeService.new ex qm storage gh = some t) :
      ProtocolReachable ⟨t, none⟩
  | step (s s' : ProtocolState) (hr : ProtocolReachable s) (hs : ProtocolStep s s') :
      ProtocolReachable s'

/-- Shape test used to compare the success/failure behaviour of
`RuntimeLock::start` runs: `true` iff the run neither panicked nor returned
an error. -/
def startIsOk (r : Option (Except RuntimeCallError (RuntimeCallLock × VM × GuardedTree))) : Bool :=
  match r with
  | some (.ok _) => true
  | _ => false

/-- Membership-respecting invariant used to prove the VM-slot discipline:
with the mutex free every record's slot is full; while a call lock for block
`bh` holds the guard, only the record bound to `bh` may have an empty slot. -/
def ProtocolInv : ProtocolState → Prop
  | ⟨t, none⟩ => ∀ kv ∈ t.runtimes, kv.2.slotFull = true
  | ⟨t, some bh⟩ => ∀ kv ∈ t.runtimes, kv.2.slotFull = true ∨ t.block_runtime_id bh = some kv.1

/-- Concrete executor for evaluations: heap-pages decoding and compilation
always fail. -/
def exW : Executor :=
  { storage_heap_pages_to_value := fun _ => .error 0,
    new_vm := fun _ _ => .error 0,
    core_version := fun vm => .ok (0, vm) }

/-- Concrete metadata query machine that finishes immediately with `[2]`. -/
def qmW : VM → MetadataQuery := fun vm => .Finished (.ok [2]) vm

/-- Concrete header for evaluations. -/
def hdrW : Header := { number := 0, state_root := 0, parent_hash := 0 }

/-- Concrete successfully-compiled runtime record holding VM `10`. -/
def rtOkW : Runtime :=
  { runtime := .ok { metadata := none, runtime_spec := 0, virtual_machine := some 10 },
    runtime_code := some [1], heap_pages := none }

/-- Concrete one-block tree: block `1` bound to record `0` (= `rtOkW`). -/
def treeW1 : GuardedTree := { runtimes := [(0, rtOkW)], blocks := [(1, 0)], best := 1 }

/-- Concrete empty tree. -/
def emptyTree : GuardedTree := { runtimes := [], blocks := [], best := 0 }

/-- Concrete fallback network fetch result (never consulted in the
evaluations that carry it). -/
def nfW : Except RuntimeCallError (Header × VM) := .error .NetworkBlockRequest

/-- Concrete proof verifier for evaluations: every key verifies to absent. -/
def verifyW : Bytes → Hash → List Bytes → Except ProofError (Option Bytes) :=
  fun _ _ _ => .ok none

/-- Concrete proof trie for the prefix-walk evaluations: the root (key `[]`)
carries a storage value and one child `1`; node `[1]` has no value and one
child `2`; node `[1, 2]` (the byte key `0x12`) carries a storage value. -/
def trieOracleW : List Nat → Except ProofError NodeInfo
  | [] => .ok { has_storage_value := true, children := .one 1 }
  | [1] => .ok { has_storage_value := false, children := .one 2 }
  | [1, 2] => .ok { has_storage_value := true, children := .nothing }
  | _ => .error (.Other 0)

/-- Concrete `trie_node_info` oracle ignoring proof bytes and root. -/
def nodeInfoW : List Bytes → Hash → List Nat → Except ProofError NodeInfo :=
  fun _ _ k => trieOracleW k

/-- Concrete call lock with a successfully fetched call proof. -/
def lockPW : RuntimeCallLock :=
  { guarded := false, runtime_block_header := hdrW, block_hash := 1, call_proof := .ok [[7]] }

/-- Concrete record for the metadata race: the old best block's runtime
(VM `10`, no cached metadata). -/
def rtA : Runtime :=
  { runtime := .ok { metadata := none, runtime_spec := 0, virtual_machine := some 10 },
    runtime_code := some [1], heap_pages := none }

/-- Concrete record for the metadata race: the new best block's runtime
(VM `11`, no cached metadata). -/
def rtB : Runtime :=
  { runtime := .ok { metadata := none, runtime_spec := 1, virtual_machine := some 11 },
    runtime_code := some [2], heap_pages := none }

/-- Concrete record whose compilation failed. -/
def rtErrW : Runtime :=
  { runtime := .error (.Build 0), runtime_code := some [3], heap_pages := none }

/-- Tree when `metadata()` acquires the best-block lock: best is block `1`
(record `rtA`). -/
def tLock10 : GuardedTree :=
  { runtimes := [(0, rtA), (1, rtB)], blocks := [(1, 0), (2, 1)], best := 1 }

/-- Tree when `start` re-acquires the mutex: the best block moved to `2`
(record `rtB`); block `1` is still present. -/
def tRelock10 : GuardedTree :=
  { runtimes := [(0, rtA), (1, rtB)], blocks := [(1, 0), (2, 1)], best := 2 }

/-- Same as `tRelock10` but the new best block's record failed to compile. -/
def tRelockErr10 : GuardedTree :=
  { runtimes := [(0, rtA), (1, rtErrW)], blocks := [(1, 0), (2, 1)], best := 2 }

/-- Concrete metadata query machine that finishes immediately with `[99]`. -/
def qm99 : VM → MetadataQuery := fun vm => .Finished (.ok [99]) vm

/-- The runtime record `RuntimeService::new` stores when the genesis storage
has no `:code` entry. -/
def genesisFailRecord : Runtime :=
  { runtime := .error .CodeNotFound, runtime_code := none, heap_pages := none }

/-- The tree `RuntimeService::new` returns for empty genesis storage and
genesis hash `5`. -/
def genesisFailTree : GuardedTree :=
  { runtimes := [(0, genesisFailRecord)], blocks := [(5, 0)], best := 5 }

theorem from_params_fills_slot (ex : Executor) (code heap_pages : Option Bytes)
    (sr : SuccessfulRuntime) (h : SuccessfulRuntime.from_params ex code heap_pages = .ok sr) :
    sr.virtual_machine.isSome = true := by
  unfold SuccessfulRuntime.from_params at h
  repeat' split at h
  all_goals first
    | exact Except.noConfusion h
    | (cases Except.ok.inj h; rfl)

theorem find_map_keyed (l : List (Nat × Runtime)) (i : Nat) (f : Runtime → Runtime) :
    (l.map (fun kv => if kv.1 == i then (kv.1, f kv.2) else kv)).find? (fun kv => kv.1 == i)
      = (l.find? (fun kv => kv.1 == i)).map (fun kv => (kv.1, f kv.2)) := by
  rw [List.find?_map]
  have hp : ((fun kv => kv.1 == i) ∘ fun kv : Nat × Runtime =>
      if kv.1 == i then (kv.1, f kv.2) else kv) = (fun kv : Nat × Runtime => kv.1 == i) := by
    funext kv
    by_cases h : kv.1 = i
    · simp [h]
    · simp [h]
  rw [hp]
  cases hf : l.find? (fun kv => kv.1 == i) with
  | none => rfl
  | some kv0 =>
    have hp0 : (kv0.1 == i) = true := by
      have h0 := List.find?_some hf
      exact h0
    show some (if kv0.1 == i then (kv0.1, f kv0.2) else kv0) = some (kv0.1, f kv0.2)
    rw [if_pos hp0]

theorem block_runtime_id_modify_record (t : GuardedTree) (i : Nat) (f : Runtime → Runtime)
    (h' : Hash) : (t.modify_record i f).block_runtime_id h' = t.block_runtime_id h' := rfl

theorem block_runtime_modify_record (t : GuardedTree) (i : Nat) (f : Runtime → Runtime)
    (h' : Hash) (hid : t.block_runtime_id h' = some i) :
    (t.modify_record i f).block_runtime h' = (t.block_runtime h').map f := by
  unfold GuardedTree.block_runtime
  rw [block_runtime_id_modify_record, hid]
  show ((t.modify_record i f).runtimes.find? (fun kv => kv.1 == i)).map (·.2)
      = ((t.runtimes.find? (fun kv => kv.1 == i)).map (·.2)).map f
  unfold GuardedTree.modify_record
  rw [find_map_keyed]
  cases t.runtimes.find? (fun kv => kv.1 == i) <;> rfl

theorem block_runtime_modify_block (t : GuardedTree) (h' : Hash) (f : Runtime → Runtime) :
    (t.modify_block h' f).block_runtime h' = (t.block_runtime h').map f := by
  unfold GuardedTree.modify_block
  cases hid : t.block_runtime_id h' with
  | none => unfold GuardedTree.block_runtime; rw [hid]; rfl
  | some i => exact block_runtime_modify_record t i f h' hid

theorem slotFull_set_vm_some (rt : Runtime) (vm : VM) : (rt.set_vm (some vm)).slotFull = true := by
  unfold Runtime.set_vm Runtime.slotFull
  cases hr : rt.runtime <;> rfl

theorem slotFull_set_metadata (rt : Runtime) (m : Bytes) :
    (rt.set_metadata m).slotFull = rt.slotFull := by
  unfold Runtime.set_metadata Runtime.slotFull
  cases hr : rt.runtime <;> rfl

theorem mem_modify_record (t : GuardedTree) (i : Nat) (f : Runtime → Runtime) (kv : Nat × Runtime)
    (hkv : kv ∈ (t.modify_record i f).runtimes) :
    ∃ kv0, kv0 ∈ t.runtimes ∧ kv.1 = kv0.1 ∧
      ((kv0.1 = i ∧ kv.2 = f kv0.2) ∨ (kv0.1 ≠ i ∧ kv.2 = kv0.2)) := by
  unfold GuardedTree.modify_record at hkv
  simp only [List.mem_map] at hkv
  obtain ⟨kv0, hmem, heq⟩ := hkv
  refine ⟨kv0, hmem, ?_, ?_⟩ <;> by_cases h : kv0.1 = i
  · rw [← heq]; simp [h]
  · rw [← heq]; simp [h]
  · exact .inl ⟨h, by rw [← heq]; simp [h]⟩
  · exact .inr ⟨h, by rw [← heq]; simp [h]⟩

theorem dropAborts_after_unlock (lock : RuntimeCallLock) (vm : VM) (t t' : GuardedTree)
    (hu : lock.unlock vm t = some t') : lock.dropAborts t' = false := by
  unfold RuntimeCallLock.unlock at hu
  by_cases hg : lock.guarded = true
  · rw [if_pos hg] at hu
    split at hu
    next hb => exact Option.noConfusion hu
    next rt hb =>
      split at hu
      next e hr => exact Option.noConfusion hu
      next sr hr =>
        cases Option.some.inj hu
        unfold RuntimeCallLock.dropAborts
        rw [if_pos hg]
        unfold GuardedTree.set_block_vm
        rw [block_runtime_modify_block, hb]
        show (match (rt.set_vm (some vm)).runtime with
          | .error _ => true
          | .ok sr => sr.virtual_machine.isNone) = false
        unfold Runtime.set_vm
        rw [hr]
        rfl
  · rw [if_neg hg] at hu
    cases Option.some.inj hu
    unfold RuntimeCallLock.dropAborts
    rw [if_neg hg]

theorem start_ok_characterization (inner : RuntimeLockInner) (bh : Hash) (hdr : Header)
    (pr : Except Nat (List Bytes)) (tree : GuardedTree)
    (nf : Except RuntimeCallError (Header × VM)) (lock : RuntimeCallLock) (vm : VM)
    (t2 : GuardedTree)
    (h : RuntimeLock.start inner bh hdr pr tree nf = some (.ok (lock, vm, t2))) :
    lock.block_hash = bh
    ∧ lock.call_proof = callProofResult pr
    ∧ (lock.guarded = true →
        ∃ rt sr, tree.block_runtime bh = some rt ∧ rt.runtime = .ok sr
          ∧ sr.virtual_machine = some vm ∧ t2 = tree.set_block_vm bh none)
    ∧ (lock.guarded = false → t2 = tree) := by
  cases inner with
  | OutOfTree hdr2 vm0 =>
    simp only [RuntimeLock.start, Option.some.injEq, Except.ok.injEq, Prod.mk.injEq] at h
    obtain ⟨hl, hv, ht⟩ := h
    subst hl
    exact ⟨rfl, rfl, fun hg => absurd hg (by simp), fun _ => ht.symm⟩
  | InTree =>
    simp only [RuntimeLock.start] at h
    split at h
    next rt hb =>
      split at h
      next e hr => exact Except.noConfusion (Option.some.inj h)
      next sr hr =>
        split at h
        next hvm => exact Option.noConfusion h
        next vm0 hvm =>
          simp only [Option.some.injEq, Except.ok.injEq, Prod.mk.injEq] at h
          obtain ⟨hl, hv, ht⟩ := h
          subst hl
          subst hv
          exact ⟨rfl, rfl, fun _ => ⟨rt, sr, hb, hr, hvm, ht.symm⟩,
                 fun hg => absurd hg (by simp)⟩
    next hb =>
      split at h
      next e hnf => exact Except.noConfusion (Option.some.inj h)
      next hdr3 vm3 hnf =>
        simp only [Option.some.injEq, Except.ok.injEq, Prod.mk.injEq] at h
        obtain ⟨hl, hv, ht⟩ := h
        subst hl
        exact ⟨rfl, rfl, fun hg => absurd hg (by simp), fun _ => ht.symm⟩

theorem storage_entry_proof_error (lock : RuntimeCallLock) (e : RuntimeCallError)
    (h : lock.call_proof = .error e)
    (verify : Bytes → Hash → List Bytes → Except ProofError (Option Bytes)) (key : Bytes) :
    lock.storage_entry verify key = .error e := by
  unfold RuntimeCallLock.storage_entry
  rw [h]

theorem storage_prefix_keys_proof_error (lock : RuntimeCallLock) (e : RuntimeCallError)
    (h : lock.call_proof = .error e)
    (nodeInfo : List Bytes → Hash → List Nat → Except ProofError NodeInfo) (pfx : Bytes) :
    lock.storage_prefix_keys_ordered nodeInfo pfx = .error e := by
  unfold RuntimeCallLock.storage_prefix_keys_ordered
  rw [h]

theorem block_runtime_id_modify_block (t : GuardedTree) (h : Hash) (f : Runtime → Runtime)
    (h' : Hash) : (t.modify_block h f).block_runtime_id h' = t.block_runtime_id h' := by
  unfold GuardedTree.modify_block
  cases t.block_runtime_id h <;> rfl

theorem new_genesis_runtime_slotFull (ex : Executor) (qm : VM → MetadataQuery)
    (storage : List (Bytes × Bytes)) (rt : Runtime)
    (h : new_genesis_runtime ex qm storage = some rt) : rt.slotFull = true := by
  unfold new_genesis_runtime at h
  split at h
  next e hfp =>
    cases Option.some.inj h
    rfl
  next r hfp =>
    split at h
    next hvm => exact Option.noConfusion h
    next vm0 hvm =>
      split at h
      next hdrv => exact Option.noConfusion h
      next m vm hdrv =>
        cases Option.some.inj h
        rfl

theorem block_runtime_id_of_block_runtime (t : GuardedTree) (bh : Hash) (rt : Runtime)
    (hb : t.block_runtime bh = some rt) : ∃ i, t.block_runtime_id bh = some i := by
  unfold GuardedTree.block_runtime at hb
  cases hid : t.block_runtime_id bh with
  | none => rw [hid] at hb; exact Option.noConfusion hb
  | some i => exact ⟨i, rfl⟩

theorem unlock_guarded_characterization (hdr : Header) (bh : Hash)
    (pr : Except RuntimeCallError (List Bytes)) (vm : VM) (t t' : GuardedTree)
    (hu : RuntimeCallLock.unlock ⟨true, hdr, bh, pr⟩ vm t = some t') :
    ∃ rt sr, t.block_runtime bh = some rt ∧ rt.runtime = .ok sr
      ∧ t' = t.set_block_vm bh (some vm) := by
  unfold RuntimeCallLock.unlock at hu
  split at hu
  · split at hu
    next hb => exact Option.noConfusion hu
    next rt hb =>
      split at hu
      next e hr => exact Option.noConfusion hu
      next sr hr => exact ⟨rt, sr, hb, hr, (Option.some.inj hu).symm⟩
  · next hgf => exact absurd rfl hgf

theorem protocol_inv_step (s s' : ProtocolState) (hs : ProtocolStep s s') (hinv : ProtocolInv s) :
    ProtocolInv s' := by
  cases hs with
  | envMutation t t' hrec =>
    intro kv hkv
    rcases hrec kv hkv with hslot | hmem
    · exact hslot
    · exact hinv kv hmem
  | startExtract t bh rt sr vm hb hok hvm =>
    obtain ⟨i, hid⟩ := block_runtime_id_of_block_runtime t bh rt hb
    have hsb : t.set_block_vm bh none = t.modify_record i (fun r => r.set_vm none) := by
      unfold GuardedTree.set_block_vm GuardedTree.modify_block
      rw [hid]
    intro kv hkv
    rw [hsb] at hkv
    obtain ⟨kv0, hmem0, hfst, hcases⟩ := mem_modify_record t i _ kv hkv
    rcases hcases with ⟨hkey, hval⟩ | ⟨hkey, hval⟩
    · right
      have hids : (t.set_block_vm bh none).block_runtime_id bh = t.block_runtime_id bh := by
        rw [hsb]
        exact block_runtime_id_modify_record t i _ bh
      rw [hids, hid, hfst, hkey]
    · left
      rw [hval]
      exact hinv kv0 hmem0
  | metadataWrite t bh h m =>
    intro kv hkv
    have hgid := block_runtime_id_modify_block t h (fun r => r.set_metadata m) bh
    unfold GuardedTree.modify_block at hkv
    cases hidh : t.block_runtime_id h with
    | none =>
      rw [hidh] at hkv
      rcases hinv kv hkv with hs | hid2
      · exact .inl hs
      · right
        rw [hgid]
        exact hid2
    | some i =>
      rw [hidh] at hkv
      obtain ⟨kv0, hmem0, hfst, hcases⟩ := mem_modify_record t i _ kv hkv
      rcases hcases with ⟨hkey, hval⟩ | ⟨hkey, hval⟩ <;>
        rcases hinv kv0 hmem0 with hs | hid2
      · left
        rw [hval, slotFull_set_metadata]
        exact hs
      · right
        rw [hgid, hid2, hfst]
      · left
        rw [hval]
        exact hs
      · right
        rw [hgid, hid2, hfst]
  | unlockStep t t' bh hdr pr vm hu =>
    obtain ⟨rt, sr, hb, hr, ht'⟩ := unlock_guarded_characterization hdr bh pr vm t t' hu
    subst ht'
    obtain ⟨i, hid⟩ := block_runtime_id_of_block_runtime t bh rt hb
    have hsb : t.set_block_vm bh (some vm) = t.modify_record i (fun r => r.set_vm (some vm)) := by
      unfold GuardedTree.set_block_vm GuardedTree.modify_block
      rw [hid]
    intro kv hkv
    rw [hsb] at hkv
    obtain ⟨kv0, hmem0, hfst, hcases⟩ := mem_modify_record t i _ kv hkv
    rcases hcases with ⟨hkey, hval⟩ | ⟨hkey, hval⟩
    · rw [hval]
      exact slotFull_set_vm_some kv0.2 vm
    · rcases hinv kv0 hmem0 with hs | hid2
      · rw [hval]
        exact hs
      · rw [hid] at hid2
        exact absurd (Option.some.inj hid2).symm hkey

theorem protocol_inv_reachable (s : ProtocolState) (h : ProtocolReachable s) : ProtocolInv s := by
  induction h with
  | init ex qm storage gh t hnew =>
    unfold RuntimeService.new at hnew
    cases hg : new_genesis_runtime ex qm storage with
    | none => rw [hg] at hnew; exact Option.noConfusion hnew
    | some rt =>
      rw [hg] at hnew
      cases Option.some.inj hnew
      intro kv hkv
      have hkv' : kv = (0, rt) := List.mem_singleton.mp hkv
      rw [hkv']
      exact new_genesis_runtime_slotFull ex qm storage rt hg
  | step s s' hr hs ih => exact protocol_inv_step s s' hs ih

theorem advanceFlagsStep_runtime_changed (acc : NotifyFlags) (u : OutputUpdate) :
    (advanceFlagsStep acc u).best_block_runtime_changed
      = (acc.best_block_runtime_changed || triggersRuntimeChanged u) := by
  cases u with
  | FirstFinalized => simp [advanceFlagsStep, triggersRuntimeChanged]
  | Finalized h b => simp [advanceFlagsStep, triggersRuntimeChanged]
  | Block best p hdr => cases best <;> simp [advanceFlagsStep, triggersRuntimeChanged]

theorem advanceFlags_foldl_runtime_changed (us : List OutputUpdate) (acc : NotifyFlags) :
    (us.foldl advanceFlagsStep acc).best_block_runtime_changed
      = (acc.best_block_runtime_changed || us.any triggersRuntimeChanged) := by
  induction us generalizing acc with
  | nil => simp
  | cons u us ih =>
    rw [List.foldl_cons, ih, List.any_cons, advanceFlagsStep_runtime_changed, Bool.or_assoc]

theorem advanceFlags_runtime_changed (updates : List OutputUpdate) :
    (advanceFlags updates).best_block_runtime_changed
      = updates.any triggersRuntimeChanged := by
  have h := advanceFlags_foldl_runtime_changed updates ⟨false, false, false⟩
  simpa using h

theorem startNecessaryDownloads_stops_at_cap (inflight avail : Nat) (h : 2 ≤ inflight) :
    startNecessaryDownloads inflight avail = inflight := by
  cases avail with
  | zero => rfl
  | succ a =>
    unfold startNecessaryDownloads
    rw [if_pos h]

theorem startNecessaryDownloads_le_two (avail : Nat) :
    ∀ inflight, inflight ≤ 2 → startNecessaryDownloads inflight avail ≤ 2 := by
  induction avail with
  | zero => intro inflight h; exact h
  | succ a ih =>
    intro inflight h
    unfold startNecessaryDownloads
    by_cases h2 : 2 ≤ inflight
    · rw [if_pos h2]; exact h
    · rw [if_neg h2]; exact ih (inflight + 1) (by omega)

theorem runWorkerEvents_le_two_aux (events : List WorkerEvent) :
    ∀ inflight, inflight ≤ 2 → events.foldl applyWorkerEvent inflight ≤ 2 := by
  induction events with
  | nil => intro inflight h; exact h
  | cons e events ih =>
    intro inflight h
    rw [List.foldl_cons]
    apply ih
    cases e with
    | wakeUpTimer a => exact startNecessaryDownloads_le_two a inflight h
    | syncNotification a => exact startNecessaryDownloads_le_two a inflight h
    | downloadFinished a => exact startNecessaryDownloads_le_two a (inflight - 1) (by omega)
    | outerLoopReset a => exact startNecessaryDownloads_le_two a 0 (by omega)

/-- C1 (counterexample): a `RuntimeCallLock` obtained from `RuntimeLock::start`
on an out-of-tree handle does not hold the guarded mutex; dropping it without
`unlock` ever restoring the VM to any record slot does NOT abort the process,
refuting the claim as universally stated. -/
theorem out_of_tree_drop_without_unlock_no_abort :
    RuntimeLock.start (.OutOfTree hdrW 7) 1 hdrW (.ok []) emptyTree nfW
      = some (.ok ({ guarded := false, runtime_block_header := hdrW, block_hash := 1,
                     call_proof := .ok [] }, 7, emptyTree))
    ∧ RuntimeCallLock.dropAborts
        { guarded := false, runtime_block_header := hdrW, block_hash := 1, call_proof := .ok [] }
        emptyTree = false :=
  ⟨rfl, rfl⟩

/-- C1 (amended): for every `RuntimeCallLock` obtained from
`RuntimeLock::start` that holds the guarded mutex (the in-tree path), dropping
it without `unlock` aborts the process (the record's slot was emptied by
`start`); and after `unlock(vm)` has run, dropping any lock does not abort.
Locks without the guard (out-of-tree, or in-tree blocks pruned during the
proof fetch) never abort on drop. -/
theorem call_lock_drop_discipline (inner : RuntimeLockInner) (bh : Hash) (hdr : Header)
    (pr : Except Nat (List Bytes)) (tree : GuardedTree)
    (nf : Except RuntimeCallError (Header × VM)) (lock : RuntimeCallLock) (vm : VM)
    (t2 : GuardedTree) (vm2 : VM)
    (hstart : RuntimeLock.start inner bh hdr pr tree nf = some (.ok (lock, vm, t2))) :
    (lock.guarded = true → lock.dropAborts t2 = true)
    ∧ (∀ t3, lock.unlock vm2 t2 = some t3 → lock.dropAborts t3 = false) := by
  obtain ⟨hbh, hcp, hg_true, hg_false⟩ := start_ok_characterization _ _ _ _ _ _ _ _ _ hstart
  constructor
  · intro hg
    obtain ⟨rt, sr, hb, hr, hvm, ht2⟩ := hg_true hg
    subst ht2
    unfold RuntimeCallLock.dropAborts
    rw [if_pos hg, hbh]
    unfold GuardedTree.set_block_vm
    rw [block_runtime_modify_block, hb]
    show (match (rt.set_vm none).runtime with
      | .error _ => true
      | .ok sr => sr.virtual_machine.isNone) = true
    unfold Runtime.set_vm
    rw [hr]
    rfl
  · intro t3 hu
    exact dropAborts_after_unlock lock vm2 t2 t3 hu

/-- Witness for C1's amended theorem at a concrete in-tree lock. -/
theorem call_lock_drop_discipline_witness :
    RuntimeCallLock.dropAborts
      { guarded := true, runtime_block_header := hdrW, block_hash := 1, call_proof := .ok [] }
      (treeW1.set_block_vm 1 none) = true
    ∧ RuntimeCallLock.dropAborts
      { guarded := true, runtime_block_header := hdrW, block_hash := 1, call_proof := .ok [] }
      (treeW1.set_block_vm 1 (some 11)) = false := by
  have h := call_lock_drop_discipline .InTree 1 hdrW (.ok []) treeW1 nfW
    { guarded := true, runtime_block_header := hdrW, block_hash := 1, call_proof := .ok [] }
    10 (treeW1.set_block_vm 1 none) 11 rfl
  exact ⟨h.1 rfl, h.2 (treeW1.set_block_vm 1 (some 11)) rfl⟩

/-- C2 (counterexample): with a genesis storage lacking `:code`, the genesis
runtime fails to build (`CodeNotFound`), yet `RuntimeService::new` does not
abort: it returns a service whose tree stores the error record. -/
theorem new_survives_genesis_build_failure :
    SuccessfulRuntime.from_params exW (genesisFind [] codeKey) (genesisFind [] heappagesKey)
      = .error .CodeNotFound
    ∧ RuntimeService.new exW qmW [] 5 = some genesisFailTree :=
  ⟨rfl, rfl⟩

/-- C2 (amended): `RuntimeService::new` aborts the process iff the genesis
runtime builds successfully but driving its metadata query over the genesis
storage fails; a genesis build failure is not fatal — the error is stored in
the runtime record and `new` returns a service whose tree is seeded with the
genesis block bound to that record. -/
theorem new_aborts_iff_genesis_metadata_failure (ex : Executor) (qm : VM → MetadataQuery)
    (storage : List (Bytes × Bytes)) (gh : Hash) :
    (RuntimeService.new ex qm storage gh = none ↔
      ∃ sr vm, SuccessfulRuntime.from_params ex (genesisFind storage codeKey)
          (genesisFind storage heappagesKey) = .ok sr
        ∧ sr.virtual_machine = some vm
        ∧ driveGenesisMetadata (genesisFind storage) (qm vm) = none)
    ∧ (∀ e, SuccessfulRuntime.from_params ex (genesisFind storage codeKey)
          (genesisFind storage heappagesKey) = .error e →
        RuntimeService.new ex qm storage gh
          = some { runtimes := [(0, { runtime := .error e,
                                      runtime_code := genesisFind storage codeKey,
                                      heap_pages := genesisFind storage heappagesKey })],
                   blocks := [(gh, 0)], best := gh }) := by
  refine ⟨⟨?_, ?_⟩, ?_⟩
  · intro h
    unfold RuntimeService.new at h
    cases hg : new_genesis_runtime ex qm storage with
    | some rt => rw [hg] at h; exact absurd h (by simp)
    | none =>
      unfold new_genesis_runtime at hg
      split at hg
      next e hfp => exact Option.noConfusion hg
      next r hfp =>
        split at hg
        next hvm =>
          have hfull := from_params_fills_slot ex _ _ r hfp
          rw [hvm] at hfull
          exact absurd hfull (by simp)
        next vm0 hvm =>
          split at hg
          next hdrv => exact ⟨r, vm0, hfp, hvm, hdrv⟩
          next m vmf hdrv => exact Option.noConfusion hg
  · rintro ⟨sr, vm, hok, hvm, hdrv⟩
    unfold RuntimeService.new new_genesis_runtime
    rw [hok]
    dsimp only
    rw [hvm]
    dsimp only
    rw [hdrv]
    rfl
  · intro e he
    unfold RuntimeService.new new_genesis_runtime
    rw [he]
    rfl

/-- Witness for C2's amended theorem: empty genesis storage. -/
theorem new_aborts_iff_genesis_metadata_failure_witness :
    RuntimeService.new exW qmW [] 5 = some genesisFailTree :=
  (new_aborts_iff_genesis_metadata_failure exW qmW [] 5).2 .CodeNotFound rfl

/-- C3 (counterexample): an output `Finalized` event, whose emission never
signals a runtime-record change (per the tree's contract, captured by
`runtimeRecordChanged`), nonetheless sets `best_block_runtime_changed` in
`advance_and_notify_subscribers`, so every runtime-version subscriber is
notified although the best block's runtime record is unchanged. -/
theorem finalized_output_spurious_runtime_notification :
    (advanceFlags [.Finalized 1 1]).best_block_runtime_changed = true
    ∧ runtimeRecordChanged [.Finalized 1 1] = false
    ∧ notifiedRuntimeVersionSubs [0] (advanceFlags [.Finalized 1 1]) = [0] :=
  ⟨rfl, rfl, rfl⟩

/-- C3 (amended): the background worker notifies runtime-version subscribers
iff the output pass emitted a best-block event flagged
`NewBestAndRuntimeUpgrade`, or any `FirstFinalized` or `Finalized` event
(`triggersRuntimeChanged`); output finalization events therefore do cause a
runtime-version notification even when the best block's runtime record is
unchanged. -/
theorem runtime_version_notification_triggers (updates : List OutputUpdate) (subs : List Nat) :
    (advanceFlags updates).best_block_runtime_changed = updates.any triggersRuntimeChanged
    ∧ notifiedRuntimeVersionSubs subs (advanceFlags updates)
        = (if updates.any triggersRuntimeChanged then subs else []) := by
  refine ⟨advanceFlags_runtime_changed updates, ?_⟩
  unfold notifiedRuntimeVersionSubs
  rw [advanceFlags_runtime_changed]

/-- C4: a failed `call_proof_query` never makes `RuntimeLock::start` return an
error — the success shape of `start` is the same as with a successful proof —
and when `start` returns a lock, the stored proof error is returned verbatim
by every subsequent `storage_entry` and `storage_prefix_keys_ordered` call. -/
theorem start_survives_call_proof_failure (inner : RuntimeLockInner) (bh : Hash) (hdr : Header)
    (tree : GuardedTree) (nf : Except RuntimeCallError (Header × VM)) (e : Nat)
    (p : List Bytes) :
    startIsOk (RuntimeLock.start inner bh hdr (.error e) tree nf)
      = startIsOk (RuntimeLock.start inner bh hdr (.ok p) tree nf)
    ∧ (∀ lock vm t2,
        RuntimeLock.start inner bh hdr (.error e) tree nf = some (.ok (lock, vm, t2)) →
          lock.call_proof = .error (.CallProof e)
          ∧ (∀ verify key, lock.storage_entry verify key = .error (.CallProof e))
          ∧ (∀ nodeInfo pfx, lock.storage_prefix_keys_ordered nodeInfo pfx
              = .error (.CallProof e))) := by
  constructor
  · cases inner with
    | OutOfTree hdr2 vm0 => rfl
    | InTree =>
      unfold RuntimeLock.start
      cases hb : tree.block_runtime bh with
      | none =>
        dsimp only
        cases nf with
        | error e2 => rfl
        | ok pvm =>
          obtain ⟨h3, v3⟩ := pvm
          rfl
      | some rt =>
        dsimp only
        cases hr : rt.runtime with
        | error e2 => rfl
        | ok sr =>
          dsimp only
          cases hvm : sr.virtual_machine with
          | none => rfl
          | some vm0 => rfl
  · intro lock vm t2 hstart
    obtain ⟨hbh, hcp, _, _⟩ := start_ok_characterization _ _ _ _ _ _ _ _ _ hstart
    have hcp' : lock.call_proof = .error (.CallProof e) := hcp
    exact ⟨hcp', fun verify key => storage_entry_proof_error lock _ hcp' verify key,
           fun nodeInfo pfx => storage_prefix_keys_proof_error lock _ hcp' nodeInfo pfx⟩

/-- Witness for C4 at a concrete out-of-tree lock with proof error `3`. -/
theorem start_survives_call_proof_failure_witness :
    startIsOk (RuntimeLock.start (.OutOfTree hdrW 7) 1 hdrW (.error 3) emptyTree nfW)
      = startIsOk (RuntimeLock.start (.OutOfTree hdrW 7) 1 hdrW (.ok []) emptyTree nfW)
    ∧ ({ guarded := false, runtime_block_header := hdrW, block_hash := 1,
         call_proof := .error (.CallProof 3) } : RuntimeCallLock).call_proof
        = .error (.CallProof 3)
    ∧ ({ guarded := false, runtime_block_header := hdrW, block_hash := 1,
         call_proof := .error (.CallProof 3) } : RuntimeCallLock).storage_entry verifyW [1]
        = .error (.CallProof 3)
    ∧ ({ guarded := false, runtime_block_header := hdrW, block_hash := 1,
         call_proof := .error (.CallProof 3) } : RuntimeCallLock).storage_prefix_keys_ordered
        nodeInfoW [1] = .error (.CallProof 3) := by
  have h := start_survives_call_proof_failure (.OutOfTree hdrW 7) 1 hdrW emptyTree nfW 3 []
  have h2 := h.2 { guarded := false, runtime_block_header := hdrW, block_hash := 1,
                   call_proof := .error (.CallProof 3) } 7 emptyTree rfl
  exact ⟨h.1, h2.1, h2.2.1 verifyW [1], h2.2.2 nodeInfoW [1]⟩

/-- C5: the number of in-flight runtime downloads never exceeds 2 over any
sequence of worker events, and `start_necessary_downloads` dispatches nothing
as soon as 2 downloads are in flight. -/
theorem download_parallelism_cap :
    (∀ events : List WorkerEvent, runWorkerEvents events ≤ 2)
    ∧ (∀ inflight avail : Nat, 2 ≤ inflight →
        startNecessaryDownloads inflight avail = inflight) := by
  constructor
  · intro events
    exact runWorkerEvents_le_two_aux events 0 (by omega)
  · intro inflight avail h
    exact startNecessaryDownloads_stops_at_cap inflight avail h

/-- Witness for C5 at a concrete event sequence and at the cap. -/
theorem download_parallelism_cap_witness :
    runWorkerEvents [.outerLoopReset 5, .syncNotification 3, .downloadFinished 4] ≤ 2
    ∧ startNecessaryDownloads 2 5 = 2 := by
  have h := download_parallelism_cap
  exact ⟨h.1 _, h.2 2 5 (by decide)⟩

/-- C6: when a runtime download completes successfully with `(code,
heap_pages)`, the worker binds the block to an already-existing runtime
record — without invoking `SuccessfulRuntime::from_params` — iff some record
in the tree has byte-equal `runtime_code` and `heap_pages`; otherwise it
compiles the pair with `from_params` and inserts it as a new record carrying
exactly those values. -/
theorem runtime_download_dedup (ex : Executor) (runtimes : List (Nat × Runtime))
    (code hp : Option Bytes) :
    ((∃ i, runtime_download_finished_action ex runtimes code hp = .bindExisting i)
      ↔ ∃ kv, kv ∈ runtimes ∧ kv.2.runtime_code = code ∧ kv.2.heap_pages = hp)
    ∧ ((∀ kv ∈ runtimes, ¬(kv.2.runtime_code = code ∧ kv.2.heap_pages = hp)) →
        runtime_download_finished_action ex runtimes code hp
          = .insertNew { runtime := SuccessfulRuntime.from_params ex code hp,
                         runtime_code := code, heap_pages := hp }) := by
  unfold runtime_download_finished_action
  cases hf : runtimes.find? (fun kv =>
      decide (kv.2.runtime_code = code ∧ kv.2.heap_pages = hp)) with
  | some kv =>
    have hp1 := List.find?_some hf
    have hp2 : kv.2.runtime_code = code ∧ kv.2.heap_pages = hp := of_decide_eq_true hp1
    refine ⟨⟨fun _ => ⟨kv, List.mem_of_find?_eq_some hf, hp2.1, hp2.2⟩, fun _ => ⟨kv.1, rfl⟩⟩, ?_⟩
    intro hnone
    exact absurd hp2 (hnone kv (List.mem_of_find?_eq_some hf))
  | none =>
    refine ⟨⟨?_, ?_⟩, fun _ => rfl⟩
    · rintro ⟨i, hi⟩
      exact DownloadFinishedAction.noConfusion hi
    · rintro ⟨kv, hmem, h1, h2⟩
      have hnp := List.find?_eq_none.mp hf kv hmem
      exact absurd (decide_eq_true ⟨h1, h2⟩) hnp

/-- Witness for C6 with an empty record list (no byte-equal record exists, so
a new record is compiled and inserted). -/
theorem runtime_download_dedup_witness :
    ((∃ i, runtime_download_finished_action exW [] none none = .bindExisting i)
      ↔ ∃ kv, kv ∈ ([] : List (Nat × Runtime)) ∧ kv.2.runtime_code = none
          ∧ kv.2.heap_pages = none)
    ∧ runtime_download_finished_action exW [] none none
        = .insertNew { runtime := SuccessfulRuntime.from_params exW none none,
                       runtime_code := none, heap_pages := none } := by
  have h := runtime_download_dedup exW [] none none
  exact ⟨h.1, h.2 (by simp)⟩

/-- C7 (code bug): `storage_prefix_keys_ordered` visits only the prefix node
itself — the children it pushes into `to_find` are never processed because the
source lacks the surrounding `while !to_find.is_empty()` loop. On a proof trie
whose root (the empty prefix) holds a value and has a descendant `0x12` that
also holds a value, the code returns only the empty key, while the documented
behaviour (`specStoragePrefixKeysOrdered`, modelled from the spec) returns
both keys. -/
theorem storage_prefix_keys_misses_descendants :
    RuntimeCallLock.storage_prefix_keys_ordered nodeInfoW lockPW [] = .ok [[]]
    ∧ specStoragePrefixKeysOrdered nodeInfoW lockPW 4 [] = .ok [[], [18]]
    ∧ trieOracleW [1, 2] = .ok { has_storage_value := true, children := .nothing } :=
  ⟨rfl, rfl, rfl⟩

/-- C8 (counterexample): after a successful runtime download that produced no
best-block output transition, the code's cached flag becomes `true` (the
unconditional hack at runtime_service.rs:1193), so with the sync service near
the head `is_near_head_of_chain_heuristic` returns `true` — although the flag
the claim describes (captured at the latest best-block output transition,
`claimFlagStep`) is still `false`. -/
theorem near_head_flag_not_output_gated :
    is_near_head_of_chain_heuristic true (codeFlagStep false (.downloadSuccess false false)) = true
    ∧ is_near_head_of_chain_heuristic true
        (claimFlagStep false (.downloadSuccess false false)) = false :=
  ⟨rfl, rfl⟩

/-- C8 (amended): `is_near_head_of_chain_heuristic` returns `false` whenever
the sync service's heuristic is `false` (near-to-far propagates immediately)
and otherwise returns the cached flag; the cached flag is set to the sync
heuristic sampled when a new best block arrives on the *input* side, is
unconditionally set to `true` by every successful runtime download, and is
unchanged by download failures and finalization notifications — it is not
captured at best-block output transitions. -/
theorem near_head_heuristic_behaviour :
    (∀ flag : Bool, is_near_head_of_chain_heuristic false flag = false)
    ∧ (∀ flag : Bool, is_near_head_of_chain_heuristic true flag = flag)
    ∧ (∀ flag sync_near ob : Bool, codeFlagStep flag (.inputBlock true sync_near ob) = sync_near)
    ∧ (∀ flag sync_near ob : Bool, codeFlagStep flag (.downloadSuccess sync_near ob) = true)
    ∧ (∀ flag sync_near ob : Bool, codeFlagStep flag (.inputBlock false sync_near ob) = flag)
    ∧ (∀ flag : Bool, codeFlagStep flag .downloadFailure = flag)
    ∧ (∀ flag sync_near ob : Bool,
        codeFlagStep flag (.finalizedNotification sync_near ob) = flag) :=
  ⟨fun _ => rfl, fun _ => rfl, fun _ _ _ => rfl, fun _ _ _ => rfl, fun _ _ _ => rfl,
   fun _ => rfl, fun _ _ _ => rfl⟩

/-- C9: in every reachable state of the guarded-mutex protocol in which the
mutex is not held by a call lock, every runtime record in the tree that
compiled successfully has its `virtual_machine` slot occupied — so
`RuntimeLock::runtime`'s `unwrap` of the slot cannot fail: the slot is emptied
only by `RuntimeLock::start` while the guard is transferred into the returned
`RuntimeCallLock`, and `unlock` refills it before the guard is released. -/
theorem vm_slot_full_when_mutex_free (s : ProtocolState) (hr : ProtocolReachable s)
    (hfree : s.holder = none) :
    ∀ kv ∈ s.tree.runtimes, kv.2.slotFull = true := by
  have hinv := protocol_inv_reachable s hr
  obtain ⟨t, holder⟩ := s
  subst hfree
  exact hinv

/-- Witness for C9 at the genesis state produced by a concrete
`RuntimeService::new`. -/
theorem vm_slot_full_when_mutex_free_witness :
    ((0, genesisFailRecord) : Nat × Runtime).2.slotFull = true :=
  vm_slot_full_when_mutex_free ⟨genesisFailTree, none⟩
    (ProtocolReachable.init exW qmW [] 5 genesisFailTree rfl) rfl
    (0, genesisFailRecord) (List.Mem.head _)

/-- C10: an execution of `metadata()` in which the best block moves from
block `1` to block `2` while the call proof is being fetched: the metadata
`[99]` computed from block `1`'s runtime is written into block `2`'s record
(block `1`'s record keeps no metadata), and if block `2`'s record holds a
compile error the unconditional `.unwrap()` of the write-back panics. -/
theorem metadata_race_writes_new_best_and_can_panic :
    RuntimeService.metadata verifyW qm99 tLock10 hdrW (.ok []) tRelock10 nfW
      = some (.ok [99],
          { runtimes := [(0, rtA),
              (1, { runtime := .ok { metadata := some [99], runtime_spec := 1,
                                     virtual_machine := some 11 },
                    runtime_code := some [2], heap_pages := none })],
            blocks := [(1, 0), (2, 1)], best := 2 })
    ∧ RuntimeService.metadata verifyW qm99 tLock10 hdrW (.ok []) tRelockErr10 nfW = none :=
  ⟨rfl, rfl⟩

end RuntimeServiceModel
